import Mathlib

/-!
Verification of the DiscordNES interactive control loop (`src/main.rs`).

The emulator (`fastnes::NES`) and the Discord transport are external
collaborators; they are modelled abstractly.  Everything else — the control
byte, the button layout, the boot/reset script, the "next" capture loop and
the event dispatch — is embedded directly from the source.
-/

namespace DiscordNES

/-- Abstract interface to the NES emulator collaborator.  `step` is
`nes.next_frame()` (sampling the current controller byte), `draw` is
`nes.draw_frame(DrawOptions::All)` (the drawn frame, abstracted to a `Nat`
identifier), `reset` is `nes.reset()` and `readInternal` is
`nes.read_internal(addr)`. -/
structure NESIface (σ : Type) where
  step : σ → Nat → σ
  draw : σ → Nat
  reset : σ → σ
  readInternal : σ → Nat → Nat

/-- The session state owned by `run()`: the shared `AtomicU8` controller
byte `input`, the emulator state, the number of emulated frames stepped so
far, and the `Snowflake<Attachment>` id of the most recently published
artifact (`attachment` in the source). -/
structure Session (σ : Type) where
  input : Nat
  nes : σ
  frames : Nat
  attachment : Nat
deriving DecidableEq

variable {σ : Type}

/-- Probe `can_control_mario`: reads emulator address 0x000e and compares
with 8. -/
def can_control_mario (N : NESIface σ) (s : σ) : Bool :=
  N.readInternal s 0x000e == 8

/-- One `nes.next_frame()` call: the emulator samples the current controller
byte; the session frame counter advances by one. -/
def stepFrame (N : NESIface σ) (s : Session σ) : Session σ :=
  { s with nes := N.step s.nes s.input, frames := s.frames + 1 }

/-- Stepping the emulator for a fixed number of frames. -/
def runFrames (N : NESIface σ) (n : Nat) (s : Session σ) : Session σ :=
  (stepFrame N)^[n] s

/-- The `while !can_control_mario` polling loop, with explicit
fuel; `none` means the probe did not become true within `fuel` frames. -/
def waitControl (N : NESIface σ) : Nat → Session σ → Option (Session σ)
  | 0, s => if can_control_mario N s.nes then some s else none
  | f + 1, s =>
    if can_control_mario N s.nes then some s
    else waitControl N f (stepFrame N s)

/-- The scripted warm-up sequence ("run until 1-1", lines 143–156, repeated
verbatim in the "reset" branch, lines 232–246): 60 idle frames, store
`1 << 3` (Start), one frame, store 0, 60 more idle frames, then poll
`can_control_mario` in a tight loop. -/
def bootScript (N : NESIface σ) (fuel : Nat) (s : Session σ) : Option (Session σ) :=
  let s1 := runFrames N 60 s
  let s2 := { s1 with input := 1 <<< 3 }
  let s3 := stepFrame N s2
  let s4 := { s3 with input := 0 }
  let s5 := runFrames N 60 s4
  waitControl N fuel s5

/-- Function `encode_frame`: steps the emulator one frame, draws it and
feeds it to the GIF encoder (the encoded stream is abstracted as the list of
drawn frames). -/
def encode_frame (N : NESIface σ) (s : Session σ) (gif : List Nat) :
    Session σ × List Nat :=
  let s1 := stepFrame N s
  (s1, gif ++ [N.draw s1.nes])

/-- One iteration of the "next" capture loops:
`nes.next_frame(); encode_frame(&mut gif, &mut nes);` — two emulated frames,
of which the second is captured. -/
def nextIter (N : NESIface σ) : Session σ × List Nat → Session σ × List Nat
  | (s, gif) => encode_frame N (stepFrame N s) gif

/-- The capturing `while !can_control_mario` loop of the "next" arm, with
explicit fuel (number of remaining iterations allowed). -/
def captureLoop (N : NESIface σ) : Nat → Session σ × List Nat →
    Option (Session σ × List Nat)
  | 0, (s, gif) => if can_control_mario N s.nes then some (s, gif) else none
  | f + 1, (s, gif) =>
    if can_control_mario N s.nes then some (s, gif)
    else captureLoop N f (nextIter N (s, gif))

/-- Button styles of `discord::message::ButtonStyle` (the three variants
used). -/
inductive BStyle
  | Primary
  | Secondary
  | Success
deriving DecidableEq

/-- One `Button::Action` as built by the `button` closure in
`components`. -/
structure UIButton where
  style : BStyle
  custom_id : String
  disabled : Bool
  label : String
deriving DecidableEq

/-- One row of buttons, as built by `ActionRow::new`. -/
structure UIRow where
  row : List UIButton
deriving DecidableEq

/-- The `button` closure inside `fn components(input: u8)`:
style is Secondary for bit-less buttons, else Primary when
`input & 1 << bit == 0` and Success otherwise; disabled iff no label;
label defaults to `"_"`. -/
def mkButton (input : Nat) (cid : String) (label : Option String)
    (bit : Option Nat) : UIButton :=
  { style :=
      match bit with
      | some b => if input &&& (1 <<< b) = 0 then .Primary else .Success
      | none => .Secondary
    custom_id := cid
    disabled := label.isNone
    label := label.getD "_" }

/-- Function `components` (lines 65–109): the full button layout for a
given control byte. -/
def components (input : Nat) : List UIRow :=
  [ ⟨[ mkButton input "00" none none,
       mkButton input "up" (some "⬆") (some 4),
       mkButton input "02" none none,
       mkButton input "03" none none,
       mkButton input "04" none none ]⟩,
    ⟨[ mkButton input "left" (some "⬅") (some 6),
       mkButton input "11" none none,
       mkButton input "right" (some "➡") (some 7),
       mkButton input "13" none none,
       mkButton input "a" (some "🅰️") (some 0) ]⟩,
    ⟨[ mkButton input "20" none none,
       mkButton input "down" (some "⬇") (some 5),
       mkButton input "22" none none,
       mkButton input "b" (some "🅱️") (some 1),
       mkButton input "24" none none ]⟩,
    ⟨[ mkButton input "next" (some "Next") none,
       mkButton input "reset" (some "Reset") none ]⟩ ]

/-- The button arms of the `match i.data.custom_id.as_str()` expression
(lines 180–186): which bit a non-macro token toggles. -/
def buttonBit : String → Option Nat
  | "a" => some 0
  | "b" => some 1
  | "up" => some 4
  | "down" => some 5
  | "left" => some 6
  | "right" => some 7
  | _ => none

/-- An artifact file as built by `as_png` / the gif branch: name, media
type, and payload (abstracted as the list of frames it encodes). -/
structure FileArt where
  name : String
  typ : String
  data : List Nat
deriving DecidableEq

/-- The attachment directive of a published update:
`IndexedOr(vec![CreateAttachment::new(img)], vec![])` attaches a new
artifact, `IndexedOr(vec![], vec![attachment.into()])` keeps the existing
one by its stored id. -/
inductive Directive
  | attachNew (file : FileArt)
  | keepExisting (id : Nat)
deriving DecidableEq

/-- A published `CreateUpdate`: button layout plus attachment directive. -/
structure Response where
  comps : List UIRow
  directive : Directive
deriving DecidableEq

/-- The `"next"` arm of the event match (lines 187–227): five iterations of
`{ next_frame; encode_frame }`, then the probe-bounded capture loop, then a
deferred update attaching the GIF; `attachment` is replaced by the id the
platform assigned to the new artifact.  The layout uses `byte`, the control
byte loaded at the top of the iteration (unchanged by this arm). -/
def nextBranch (N : NESIface σ) (fuel newId : Nat) (s : Session σ) :
    Option (Session σ × Option Response) :=
  match captureLoop N fuel ((nextIter N)^[5] (s, [])) with
  | none => none
  | some (s2, gif) =>
    some ({ s2 with attachment := newId },
      some { comps := components s.input,
             directive := .attachNew ⟨"frames.gif", "image/gif", gif⟩ })

/-- The `"reset"` arm of the event match (lines 228–268): `nes.reset()`,
`input.store(0)`, the warm-up script again, then an update attaching a fresh
PNG of the current frame.  As in the source, the layout is built from
`byte`, the control byte loaded **before** the reset. -/
def resetBranch (N : NESIface σ) (fuel newId : Nat) (s : Session σ) :
    Option (Session σ × Option Response) :=
  match bootScript N fuel { s with nes := N.reset s.nes, input := 0 } with
  | none => none
  | some s2 =>
    some ({ s2 with attachment := newId },
      some { comps := components s.input,
             directive := .attachNew ⟨"frame.png", "image/png", [N.draw s2.nes]⟩ })

/-- One `GatewayEvent::InteractionCreate(Component)` iteration of the event
loop (lines 176–281), assuming the publish succeeds and assigns `newId` to
a newly attached artifact.  Returns `none` when an inner probe loop has not
terminated within `fuel` frames; otherwise `some (s2, r?)` where `r?` is the
published response (`none` for ignored unknown tokens). -/
def handleEvent (N : NESIface σ) (fuel newId : Nat) (s : Session σ)
    (token : String) : Option (Session σ × Option Response) :=
  match buttonBit token with
  | some bit =>
    some ({ s with input := s.input ^^^ (1 <<< bit) },
      some { comps := components (s.input ^^^ (1 <<< bit)),
             directive := .keepExisting s.attachment })
  | none =>
    if token = "next" then nextBranch N fuel newId s
    else if token = "reset" then resetBranch N fuel newId s
    else some (s, none)

/-- The event loop folded over a list of incoming tokens (publishes always
succeed, new artifacts get id `newId`). -/
def processEvents (N : NESIface σ) (fuel newId : Nat) :
    Session σ → List String → Option (Session σ)
  | s, [] => some s
  | s, t :: ts =>
    match handleEvent N fuel newId s t with
    | none => none
    | some (s2, _) => processEvents N fuel newId s2 ts

/-- The pure effect of one event on the control byte. -/
def toggleStep (inp : Nat) (t : String) : Nat :=
  match buttonBit t with
  | some b => inp ^^^ (1 <<< b)
  | none => inp

/-- Outcome of one publish attempt on the Discord transport. -/
inductive PubResult
  | ok (id : Nat)
  | err
deriving DecidableEq

/-- Artifact id assigned by a successful publish. -/
def pubId : PubResult → Nat
  | .ok i => i
  | .err => 0

/-- How the event loop exits. -/
inductive LoopExit (σ : Type)
  | done (s : Session σ)
  | transportErr
  | outOfFuel
deriving DecidableEq

/-- The event loop with transport outcomes: each published response consumes
one `PubResult`; a failed publish makes the enclosing `?` propagate the
error out of `run()` (where `main` unwraps it), so the loop exits
immediately with `transportErr` — there is no retry. -/
def runLoop (N : NESIface σ) (fuel : Nat) :
    Session σ → List (String × PubResult) → LoopExit σ
  | s, [] => .done s
  | s, (t, pr) :: rest =>
    match handleEvent N fuel (pubId pr) s t with
    | none => .outOfFuel
    | some (s2, none) => runLoop N fuel s2 rest
    | some (s2, some _) =>
      match pr with
      | .err => .transportErr
      | .ok _ => runLoop N fuel s2 rest

/-- Version of `runFrames` instrumented to also return the controller byte sampled at
each stepped frame. -/
def runFramesT (N : NESIface σ) : Nat → Session σ → Session σ × List Nat
  | 0, s => (s, [])
  | n + 1, s =>
    let r := runFramesT N n (stepFrame N s)
    (r.1, s.input :: r.2)

/-- Version of `waitControl` instrumented with the sampled controller
bytes. -/
def waitControlT (N : NESIface σ) : Nat → Session σ →
    Option (Session σ × List Nat)
  | 0, s => if can_control_mario N s.nes then some (s, []) else none
  | f + 1, s =>
    if can_control_mario N s.nes then some (s, [])
    else
      match waitControlT N f (stepFrame N s) with
      | none => none
      | some (s2, l) => some (s2, s.input :: l)

/-- The session state in the middle of the warm-up script, right after the
single Start-press frame: 60 frames stepped, `1 << 3` stored, one frame
stepped, `0` stored. -/
def bootMidT (N : NESIface σ) (s : Session σ) : Session σ :=
  { stepFrame N { (runFramesT N 60 s).1 with input := 1 <<< 3 } with
    input := 0 }

/-- Version of `bootScript` instrumented with the sampled controller
bytes. -/
def bootScriptT (N : NESIface σ) (fuel : Nat) (s : Session σ) :
    Option (Session σ × List Nat) :=
  match waitControlT N fuel (runFramesT N 60 (bootMidT N s)).1 with
  | none => none
  | some (s6, l) =>
    some (s6,
      (runFramesT N 60 s).2 ++ (1 <<< 3) ::
        ((runFramesT N 60 (bootMidT N s)).2 ++ l))

/-- A concrete emulator model whose probe is always true (the player always
has control): boot and capture loops finish immediately. -/
def okNES : NESIface Nat :=
  { step := fun s _ => s + 1
    draw := fun s => s
    reset := fun _ => 0
    readInternal := fun _ _ => 8 }

/-- A concrete emulator model whose probe is never true. -/
def stuckNES : NESIface Nat :=
  { step := fun s _ => s + 1
    draw := fun s => s
    reset := fun _ => 0
    readInternal := fun _ _ => 0 }

/-- A sample session with A and Up held (`input = 0b0001_0001`). -/
def sampleSession : Session Nat :=
  { input := 17, nes := 0, frames := 100, attachment := 5 }

/-- A fresh session (all buttons released). -/
def freshSession : Session Nat :=
  { input := 0, nes := 0, frames := 100, attachment := 5 }

/-! ### Basic lemmas about the stepping primitives -/

theorem stepFrame_input (N : NESIface σ) (s : Session σ) :
    (stepFrame N s).input = s.input := rfl

theorem stepFrame_attachment (N : NESIface σ) (s : Session σ) :
    (stepFrame N s).attachment = s.attachment := rfl

theorem stepFrame_frames (N : NESIface σ) (s : Session σ) :
    (stepFrame N s).frames = s.frames + 1 := rfl

theorem runFrames_input (N : NESIface σ) (n : Nat) (s : Session σ) :
    (runFrames N n s).input = s.input := by
  induction n generalizing s with
  | zero => rfl
  | succ k ih =>
    rw [runFrames, Function.iterate_succ_apply]
    exact ih (stepFrame N s)

theorem runFrames_attachment (N : NESIface σ) (n : Nat) (s : Session σ) :
    (runFrames N n s).attachment = s.attachment := by
  induction n generalizing s with
  | zero => rfl
  | succ k ih =>
    rw [runFrames, Function.iterate_succ_apply]
    exact ih (stepFrame N s)

theorem runFrames_frames (N : NESIface σ) (n : Nat) (s : Session σ) :
    (runFrames N n s).frames = s.frames + n := by
  induction n generalizing s with
  | zero => rfl
  | succ k ih =>
    rw [runFrames, Function.iterate_succ_apply]
    have := ih (stepFrame N s)
    rw [runFrames] at this
    rw [this, stepFrame_frames]
    omega

theorem waitControl_spec (N : NESIface σ) (fuel : Nat) :
    ∀ s s2 : Session σ, waitControl N fuel s = some s2 →
      can_control_mario N s2.nes = true ∧ s2.input = s.input ∧
      s2.attachment = s.attachment ∧ s.frames ≤ s2.frames := by
  induction fuel with
  | zero =>
    intro s s2 h
    rw [waitControl] at h
    split at h
    · cases h
      exact ⟨by assumption, rfl, rfl, Nat.le_refl _⟩
    · cases h
  | succ f ih =>
    intro s s2 h
    rw [waitControl] at h
    split at h
    · cases h
      exact ⟨by assumption, rfl, rfl, Nat.le_refl _⟩
    · have h2 := ih (stepFrame N s) s2 h
      refine ⟨h2.1, ?_, ?_, ?_⟩
      · rw [h2.2.1, stepFrame_input]
      · rw [h2.2.2.1, stepFrame_attachment]
      · have := h2.2.2.2
        rw [stepFrame_frames] at this
        omega

theorem bootScript_spec (N : NESIface σ) (fuel : Nat) (s s2 : Session σ)
    (h : bootScript N fuel s = some s2) :
    s2.input = 0 ∧ can_control_mario N s2.nes = true ∧
    s2.attachment = s.attachment ∧ s.frames ≤ s2.frames := by
  rw [bootScript] at h
  have hw := waitControl_spec N fuel _ _ h
  refine ⟨?_, hw.1, ?_, ?_⟩
  · rw [hw.2.1, runFrames_input]
  · rw [hw.2.2.1, runFrames_attachment, stepFrame_attachment, runFrames_attachment]
  · have h5 := hw.2.2.2
    rw [runFrames_frames, stepFrame_frames, runFrames_frames] at h5
    omega

theorem nextIter_spec (N : NESIface σ) (s : Session σ) (gif : List Nat) :
    (nextIter N (s, gif)).1.input = s.input ∧
    (nextIter N (s, gif)).1.attachment = s.attachment ∧
    (nextIter N (s, gif)).1.frames = s.frames + 2 ∧
    (nextIter N (s, gif)).2.length = gif.length + 1 := by
  refine ⟨rfl, rfl, rfl, ?_⟩
  simp [nextIter, encode_frame]

theorem nextIterPow_spec (N : NESIface σ) (n : Nat) :
    ∀ (s : Session σ) (gif : List Nat),
      ((nextIter N)^[n] (s, gif)).1.input = s.input ∧
      ((nextIter N)^[n] (s, gif)).1.attachment = s.attachment ∧
      ((nextIter N)^[n] (s, gif)).1.frames = s.frames + 2 * n ∧
      ((nextIter N)^[n] (s, gif)).2.length = gif.length + n := by
  induction n with
  | zero => intro s gif; exact ⟨rfl, rfl, rfl, rfl⟩
  | succ k ih =>
    intro s gif
    rw [Function.iterate_succ_apply]
    have hstep := nextIter_spec N s gif
    have hrec := ih (nextIter N (s, gif)).1 (nextIter N (s, gif)).2
    refine ⟨?_, ?_, ?_, ?_⟩
    · rw [hrec.1, hstep.1]
    · rw [hrec.2.1, hstep.2.1]
    · rw [hrec.2.2.1, hstep.2.2.1]; omega
    · rw [hrec.2.2.2, hstep.2.2.2]; omega

theorem captureLoop_spec (N : NESIface σ) (fuel : Nat) :
    ∀ (s : Session σ) (gif : List Nat) (s2 : Session σ) (gif2 : List Nat),
      captureLoop N fuel (s, gif) = some (s2, gif2) →
      can_control_mario N s2.nes = true ∧ s2.input = s.input ∧
      s2.attachment = s.attachment ∧ gif.length ≤ gif2.length ∧
      s2.frames + 2 * gif.length = s.frames + 2 * gif2.length := by
  induction fuel with
  | zero =>
    intro s gif s2 gif2 h
    rw [captureLoop] at h
    split at h
    · cases h
      exact ⟨by assumption, rfl, rfl, Nat.le_refl _, rfl⟩
    · cases h
  | succ f ih =>
    intro s gif s2 gif2 h
    rw [captureLoop] at h
    split at h
    · cases h
      exact ⟨by assumption, rfl, rfl, Nat.le_refl _, rfl⟩
    · have hstep := nextIter_spec N s gif
      have h2 := ih (nextIter N (s, gif)).1 (nextIter N (s, gif)).2 s2 gif2 h
      refine ⟨h2.1, ?_, ?_, ?_, ?_⟩
      · rw [h2.2.1, hstep.1]
      · rw [h2.2.2.1, hstep.2.1]
      · have := h2.2.2.2.1
        rw [hstep.2.2.2] at this
        omega
      · have := h2.2.2.2.2
        rw [hstep.2.2.1, hstep.2.2.2] at this
        omega

/-! ### Reduction lemmas for the event handler -/

theorem handleEvent_toggle (N : NESIface σ) (fuel newId : Nat) (s : Session σ)
    (t : String) (b : Nat) (hb : buttonBit t = some b) :
    handleEvent N fuel newId s t =
      some ({ s with input := s.input ^^^ (1 <<< b) },
        some { comps := components (s.input ^^^ (1 <<< b)),
               directive := .keepExisting s.attachment }) := by
  rw [handleEvent, hb]

theorem handleEvent_next (N : NESIface σ) (fuel newId : Nat) (s : Session σ) :
    handleEvent N fuel newId s "next" = nextBranch N fuel newId s := rfl

theorem handleEvent_reset (N : NESIface σ) (fuel newId : Nat) (s : Session σ) :
    handleEvent N fuel newId s "reset" = resetBranch N fuel newId s := rfl

/-- The flat list of buttons of the published layout, looked up by
`custom_id`. -/
def findButton (inp : Nat) (cid : String) : Option UIButton :=
  (((components inp).map UIRow.row).flatten).find? (fun b => b.custom_id == cid)

theorem and_shift_eq_zero_iff (inp b : Nat) :
    (inp &&& (1 <<< b) = 0) ↔ inp.testBit b = false := by
  rw [Nat.shiftLeft_eq, one_mul, Nat.and_two_pow]
  rcases h : inp.testBit b with _ | _
  · simp
  · simp [Nat.pos_iff_ne_zero.mp (Nat.two_pow_pos b)]

theorem mkButton_style_success (inp b : Nat) (cid : String)
    (lbl : Option String) :
    ((mkButton inp cid lbl (some b)).style = BStyle.Success) ↔
      inp.testBit b = true := by
  show (if inp &&& (1 <<< b) = 0 then BStyle.Primary else BStyle.Success) =
      BStyle.Success ↔ _
  rcases h : inp.testBit b with _ | _
  · rw [if_pos ((and_shift_eq_zero_iff inp b).mpr h)]
    simp
  · rw [if_neg (fun hc => by
      rw [(and_shift_eq_zero_iff inp b).mp hc] at h; cases h)]
    simp

theorem buttonBit_cases (t : String) (b : Nat) (hb : buttonBit t = some b) :
    b = 0 ∨ b = 1 ∨ b = 4 ∨ b = 5 ∨ b = 6 ∨ b = 7 := by
  unfold buttonBit at hb
  split at hb <;> first | (cases hb; decide) | (cases hb)

theorem nextBranch_input (N : NESIface σ) (fuel newId : Nat)
    (s s2 : Session σ) (ro : Option Response)
    (h : nextBranch N fuel newId s = some (s2, ro)) : s2.input = s.input := by
  rw [nextBranch] at h
  rcases hcap : captureLoop N fuel ((nextIter N)^[5] (s, [])) with _ | ⟨s3, gif⟩
  · rw [hcap] at h
    cases h
  · rw [hcap] at h
    cases h
    have hcs := captureLoop_spec N fuel ((nextIter N)^[5] (s, [])).1
      ((nextIter N)^[5] (s, [])).2 s3 gif (by rw [← hcap])
    show s3.input = s.input
    rw [hcs.2.1, (nextIterPow_spec N 5 s []).1]

theorem resetBranch_input (N : NESIface σ) (fuel newId : Nat)
    (s s2 : Session σ) (ro : Option Response)
    (h : resetBranch N fuel newId s = some (s2, ro)) : s2.input = 0 := by
  rw [resetBranch] at h
  rcases hboot : bootScript N fuel { s with nes := N.reset s.nes, input := 0 }
    with _ | s3
  · rw [hboot] at h
    cases h
  · rw [hboot] at h
    cases h
    exact (bootScript_spec N fuel _ _ hboot).1

theorem runFramesT_trace (N : NESIface σ) (n : Nat) :
    ∀ s : Session σ, (runFramesT N n s).2 = List.replicate n s.input ∧
      (runFramesT N n s).1.input = s.input ∧
      (runFramesT N n s).1 = runFrames N n s := by
  induction n with
  | zero => intro s; exact ⟨rfl, rfl, rfl⟩
  | succ k ih =>
    intro s
    have h := ih (stepFrame N s)
    refine ⟨?_, ?_, ?_⟩
    · show s.input :: (runFramesT N k (stepFrame N s)).2 =
        List.replicate (k + 1) s.input
      rw [h.1, stepFrame_input, List.replicate_succ]
    · show (runFramesT N k (stepFrame N s)).1.input = s.input
      rw [h.2.1, stepFrame_input]
    · show (runFramesT N k (stepFrame N s)).1 = runFrames N (k + 1) s
      rw [h.2.2, runFrames, runFrames]
      exact (Function.iterate_succ_apply (stepFrame N) k s).symm

theorem waitControlT_trace (N : NESIface σ) (fuel : Nat) :
    ∀ (s s2 : Session σ) (l : List Nat),
      waitControlT N fuel s = some (s2, l) →
      s2.input = s.input ∧ ∀ x ∈ l, x = s.input := by
  induction fuel with
  | zero =>
    intro s s2 l h
    rw [waitControlT] at h
    split at h
    · cases h
      exact ⟨rfl, fun x hx => absurd hx (List.not_mem_nil x)⟩
    · cases h
  | succ f ih =>
    intro s s2 l h
    rw [waitControlT] at h
    split at h
    · cases h
      exact ⟨rfl, fun x hx => absurd hx (List.not_mem_nil x)⟩
    · rcases hrec : waitControlT N f (stepFrame N s) with _ | ⟨s3, l3⟩
      · rw [hrec] at h
        cases h
      · rw [hrec] at h
        have h2 := ih (stepFrame N s) s3 l3 hrec
        rw [stepFrame_input] at h2
        cases h
        refine ⟨h2.1, fun x hx => ?_⟩
        rcases List.mem_cons.mp hx with h3 | h3
        · rw [h3]
        · exact h2.2 x h3

theorem countP_all_zero (p : Nat → Bool) (hp : p 0 = false) :
    ∀ l : List Nat, (∀ x ∈ l, x = 0) → l.countP p = 0 := by
  intro l
  induction l with
  | nil => intro _; rfl
  | cons a l ih =>
    intro h
    rw [List.countP_cons, ih (fun x hx => h x (List.mem_cons_of_mem a hx)),
      h a (List.mem_cons_self a l), hp]
    rfl

/-! ### The claims -/

/-- C1: for every sequence of non-macro button events whose tokens map to
known buttons, processed in arrival order, the final ControlState equals the
initial value XOR-folded with each event's single-bit mask in arrival order
(and no other session field changes); consequently toggling the same button
twice in a row restores the original session. -/
theorem C1_toggle_fold (N : NESIface σ) (fuel newId : Nat) :
    (∀ (s : Session σ) (ts : List String),
      (∀ t ∈ ts, (buttonBit t).isSome) →
      processEvents N fuel newId s ts =
        some { s with input := ts.foldl toggleStep s.input }) ∧
    (∀ (s : Session σ) (t : String) (b : Nat), buttonBit t = some b →
      processEvents N fuel newId s [t, t] = some s) := by
  have main : ∀ (ts : List String) (s : Session σ),
      (∀ t ∈ ts, (buttonBit t).isSome) →
      processEvents N fuel newId s ts =
        some { s with input := ts.foldl toggleStep s.input } := by
    intro ts
    induction ts with
    | nil => intro s _; rfl
    | cons t ts ih =>
      intro s h
      obtain ⟨b, hb⟩ :=
        Option.isSome_iff_exists.mp (h t (List.mem_cons_self t ts))
      have harg : List.foldl toggleStep s.input (t :: ts) =
          List.foldl toggleStep (s.input ^^^ (1 <<< b)) ts := by
        simp only [List.foldl_cons, toggleStep, hb]
      rw [processEvents, handleEvent_toggle N fuel newId s t b hb, harg]
      exact ih _ (fun x hx => h x (List.mem_cons_of_mem t hx))
  refine ⟨fun s ts h => main ts s h, fun s t b hb => ?_⟩
  have h2 := main [t, t] s (by
    intro x hx
    rcases List.mem_pair.mp hx with h1 | h1 <;> rw [h1, hb] <;> rfl)
  rw [h2]
  have h3 : List.foldl toggleStep s.input [t, t] = s.input := by
    simp only [List.foldl_cons, List.foldl_nil, toggleStep, hb,
      Nat.xor_cancel_right]
  rw [h3]

/-- C1 witness: two concrete runs of the event loop — "up" then "a" from a
fresh session, and a double press of "b". -/
theorem C1_toggle_fold_witness :
    processEvents okNES 0 7 freshSession ["up", "a"] =
      some { freshSession with input := 17 } ∧
    processEvents okNES 0 7 sampleSession ["b", "b"] = some sampleSession := by
  constructor
  · have h := (C1_toggle_fold okNES 0 7).1 freshSession ["up", "a"] (by decide)
    rw [h]
    rfl
  · exact (C1_toggle_fold okNES 0 7).2 sampleSession "b" 1 rfl

/-- C3: a non-macro button event with a known token publishes a response
that keeps the previously displayed artifact by its stored id (it never
attaches a new artifact), and changes no session field other than the
control byte. -/
theorem C3_keep_existing (N : NESIface σ) (fuel newId : Nat) (s : Session σ)
    (t : String) (b : Nat) (hb : buttonBit t = some b) :
    handleEvent N fuel newId s t =
      some ({ s with input := s.input ^^^ (1 <<< b) },
        some { comps := components (s.input ^^^ (1 <<< b)),
               directive := .keepExisting s.attachment }) :=
  handleEvent_toggle N fuel newId s t b hb

/-- C3 witness: pressing "a" with `input = 17` publishes a keep-existing
directive for attachment 5 and only flips bit 0. -/
theorem C3_keep_existing_witness :
    handleEvent okNES 0 7 sampleSession "a" =
      some ({ sampleSession with input := 16 },
        some { comps := components 16, directive := .keepExisting 5 }) := by
  have h := C3_keep_existing okNES 0 7 sampleSession "a" 0 rfl
  rw [h]
  rfl

/-- C8: an event whose token maps to no known button or macro is ignored:
the session is returned unchanged and no response is published. -/
theorem C8_unknown_ignored (N : NESIface σ) (fuel newId : Nat)
    (s : Session σ) (t : String) (hb : buttonBit t = none)
    (hn : t ≠ "next") (hr : t ≠ "reset") :
    handleEvent N fuel newId s t = some (s, none) := by
  rw [handleEvent, hb, if_neg hn, if_neg hr]

/-- C8 witness: the unmapped token "99" changes nothing and publishes
nothing. -/
theorem C8_unknown_ignored_witness :
    handleEvent okNES 0 7 sampleSession "99" = some (sampleSession, none) :=
  C8_unknown_ignored okNES 0 7 sampleSession "99" rfl (by decide) (by decide)

/-- Session produced by pressing "next" on `sampleSession` under `okNES`. -/
def nextResult : Session Nat :=
  { input := 17, nes := 10, frames := 110, attachment := 9 }

/-- Response published for that "next" press. -/
def nextResp : Response :=
  { comps := components 17,
    directive := .attachNew ⟨"frames.gif", "image/gif", [2, 4, 6, 8, 10]⟩ }

/-- Session produced by pressing "reset" on `sampleSession` under `okNES`. -/
def resetResult : Session Nat :=
  { input := 0, nes := 121, frames := 221, attachment := 9 }

/-- Response published for that "reset" press: note the layout is built
from the stale pre-reset byte 17. -/
def resetResp : Response :=
  { comps := components 17,
    directive := .attachNew ⟨"frame.png", "image/png", [121]⟩ }

/-- C5: a single "next" macro leaves the control byte unchanged and attaches
an animation artifact tagged "image/gif" holding at least the 5 frames
captured by the fixed initial loop; the emulator advances exactly two frames
per captured frame (every 2nd simulated frame is captured). -/
theorem C5_next_animation (N : NESIface σ) (fuel newId : Nat)
    (s s2 : Session σ) (r : Response)
    (h : handleEvent N fuel newId s "next" = some (s2, some r)) :
    s2.input = s.input ∧
    ∃ f : FileArt, r.directive = .attachNew f ∧ f.typ = "image/gif" ∧
      5 ≤ f.data.length ∧ s2.frames = s.frames + 2 * f.data.length := by
  rw [handleEvent_next, nextBranch] at h
  rcases hcap : captureLoop N fuel ((nextIter N)^[5] (s, [])) with _ | ⟨s3, gif⟩
  · rw [hcap] at h
    cases h
  · rw [hcap] at h
    cases h
    have hpow := nextIterPow_spec N 5 s []
    have hcs := captureLoop_spec N fuel ((nextIter N)^[5] (s, [])).1
      ((nextIter N)^[5] (s, [])).2 s3 gif (by rw [← hcap])
    refine ⟨?_, ⟨"frames.gif", "image/gif", gif⟩, rfl, rfl, ?_, ?_⟩
    · show s3.input = s.input
      rw [hcs.2.1, hpow.1]
    · have := hcs.2.2.2.1
      rw [hpow.2.2.2] at this
      simpa using this
    · show s3.frames = s.frames + 2 * gif.length
      have hfr := hcs.2.2.2.2
      rw [hpow.2.2.1, hpow.2.2.2] at hfr
      simp at hfr
      omega

/-- C5 witness: the concrete "next" press on `sampleSession` under `okNES`
(5 captured frames, GIF media type, 10 emulated frames, byte 17 kept). -/
theorem C5_next_animation_witness :
    nextResult.input = sampleSession.input ∧
    ∃ f : FileArt, nextResp.directive = .attachNew f ∧ f.typ = "image/gif" ∧
      5 ≤ f.data.length ∧
      nextResult.frames = sampleSession.frames + 2 * f.data.length :=
  C5_next_animation okNES 0 9 sampleSession nextResult nextResp (by rfl)

/-- C2: after a "reset" macro completes, the control byte is zero, the
playable-state probe is true, and a still image tagged "image/png" has been
produced and attached to the published update. -/
theorem C2_reset_state (N : NESIface σ) (fuel newId : Nat)
    (s s2 : Session σ) (r : Response)
    (h : handleEvent N fuel newId s "reset" = some (s2, some r)) :
    s2.input = 0 ∧ can_control_mario N s2.nes = true ∧
    ∃ f : FileArt, r.directive = .attachNew f ∧ f.typ = "image/png" := by
  rw [handleEvent_reset, resetBranch] at h
  rcases hboot : bootScript N fuel { s with nes := N.reset s.nes, input := 0 }
    with _ | s3
  · rw [hboot] at h
    cases h
  · rw [hboot] at h
    cases h
    have hb := bootScript_spec N fuel _ _ hboot
    exact ⟨hb.1, hb.2.1, ⟨"frame.png", "image/png", [N.draw s3.nes]⟩, rfl, rfl⟩

set_option maxRecDepth 4096 in
/-- C2 witness: the concrete "reset" press on `sampleSession` under
`okNES`. -/
theorem C2_reset_state_witness :
    resetResult.input = 0 ∧ can_control_mario okNES resetResult.nes = true ∧
    ∃ f : FileArt, resetResp.directive = .attachNew f ∧ f.typ = "image/png" :=
  C2_reset_state okNES 0 9 sampleSession resetResult resetResp (by decide)

/-- Under `stuckNES` the probe never becomes true, so the "next" capture
loop makes no progress towards termination whatever its fuel. -/
theorem captureLoop_stuck (fuel : Nat) :
    ∀ p : Session Nat × List Nat, captureLoop stuckNES fuel p = none := by
  induction fuel with
  | zero =>
    intro p
    obtain ⟨s, gif⟩ := p
    rw [captureLoop]
    simp [can_control_mario, stuckNES]
  | succ f ih =>
    intro p
    obtain ⟨s, gif⟩ := p
    rw [captureLoop]
    simp only [can_control_mario, stuckNES]
    simpa using ih (nextIter stuckNES (s, gif))

/-- C6 (amended): processing a "next" macro never decreases the emulated
frame counter, and when it completes the playable-state probe holds; but
the capture loop has no fixed frame bound — it runs exactly until the probe
becomes true. -/
theorem C6_next_monotone (N : NESIface σ) (fuel newId : Nat)
    (s s2 : Session σ) (ro : Option Response)
    (h : handleEvent N fuel newId s "next" = some (s2, ro)) :
    s.frames ≤ s2.frames ∧ can_control_mario N s2.nes = true := by
  rw [handleEvent_next, nextBranch] at h
  rcases hcap : captureLoop N fuel ((nextIter N)^[5] (s, [])) with _ | ⟨s3, gif⟩
  · rw [hcap] at h
    cases h
  · rw [hcap] at h
    cases h
    have hpow := nextIterPow_spec N 5 s []
    have hcs := captureLoop_spec N fuel ((nextIter N)^[5] (s, [])).1
      ((nextIter N)^[5] (s, [])).2 s3 gif (by rw [← hcap])
    constructor
    · show s.frames ≤ s3.frames
      have h1 := hcs.2.2.2.1
      have h2 := hcs.2.2.2.2
      rw [hpow.2.2.1, hpow.2.2.2] at h2
      simp at h2
      omega
    · exact hcs.1

/-- C6 counterexample to the bounded-budget part of the claim: with an
emulator whose probe never becomes true, no amount of fuel makes the "next"
handler finish — the capture loop is unbounded. -/
theorem C6_unbounded_counterexample :
    ¬ ∃ n : Nat, (handleEvent stuckNES n 0 sampleSession "next").isSome = true := by
  rintro ⟨n, hn⟩
  rw [handleEvent_next, nextBranch, captureLoop_stuck] at hn
  cases hn

/-- C6 witness: the monotonicity statement at the concrete "next" press on
`sampleSession` under `okNES`. -/
theorem C6_next_monotone_witness :
    sampleSession.frames ≤ nextResult.frames ∧
    can_control_mario okNES nextResult.nes = true :=
  C6_next_monotone okNES 0 9 sampleSession nextResult (some nextResp) (by rfl)

/-- C7: the bit-to-button mapping is fixed and identical in the event
dispatch and in the layout — A=0, B=1, Up=4, Down=5, Left=6, Right=7 — and
for every control byte the layout button carrying a token is styled Success
exactly when the byte's corresponding bit is set; pressing "up" then "a"
from a fresh session yields ControlState `0b0001_0001`. -/
theorem C7_bit_mapping :
    (buttonBit "a" = some 0 ∧ buttonBit "b" = some 1 ∧
     buttonBit "up" = some 4 ∧ buttonBit "down" = some 5 ∧
     buttonBit "left" = some 6 ∧ buttonBit "right" = some 7) ∧
    (∀ inp : Nat,
      (∃ btn, findButton inp "a" = some btn ∧
        (btn.style = BStyle.Success ↔ inp.testBit 0 = true)) ∧
      (∃ btn, findButton inp "b" = some btn ∧
        (btn.style = BStyle.Success ↔ inp.testBit 1 = true)) ∧
      (∃ btn, findButton inp "up" = some btn ∧
        (btn.style = BStyle.Success ↔ inp.testBit 4 = true)) ∧
      (∃ btn, findButton inp "down" = some btn ∧
        (btn.style = BStyle.Success ↔ inp.testBit 5 = true)) ∧
      (∃ btn, findButton inp "left" = some btn ∧
        (btn.style = BStyle.Success ↔ inp.testBit 6 = true)) ∧
      (∃ btn, findButton inp "right" = some btn ∧
        (btn.style = BStyle.Success ↔ inp.testBit 7 = true))) ∧
    (∀ (N : NESIface σ) (fuel newId : Nat) (s : Session σ), s.input = 0 →
      processEvents N fuel newId s ["up", "a"] =
        some { s with input := 17 }) := by
  refine ⟨⟨rfl, rfl, rfl, rfl, rfl, rfl⟩, ?_, ?_⟩
  · intro inp
    exact ⟨⟨_, rfl, mkButton_style_success inp 0 "a" (some "🅰️")⟩,
      ⟨_, rfl, mkButton_style_success inp 1 "b" (some "🅱️")⟩,
      ⟨_, rfl, mkButton_style_success inp 4 "up" (some "⬆")⟩,
      ⟨_, rfl, mkButton_style_success inp 5 "down" (some "⬇")⟩,
      ⟨_, rfl, mkButton_style_success inp 6 "left" (some "⬅")⟩,
      ⟨_, rfl, mkButton_style_success inp 7 "right" (some "➡")⟩⟩
  · intro N fuel newId s h0
    have h1 : processEvents N fuel newId s ["up", "a"] =
        processEvents N fuel newId
          { s with input := s.input ^^^ (1 <<< 4) } ["a"] := by
      rw [processEvents, handleEvent_toggle N fuel newId s "up" 4 rfl]
    have h2 : processEvents N fuel newId
        { s with input := s.input ^^^ (1 <<< 4) } ["a"] =
        some { s with input := (s.input ^^^ (1 <<< 4)) ^^^ (1 <<< 0) } := by
      rw [processEvents,
        handleEvent_toggle N fuel newId _ "a" 0 rfl]
      rfl
    rw [h1, h2, h0]
    rfl

/-- C7 witness: with byte 17 the "up" button is styled Success, and the
concrete fresh-session run of "up" then "a" ends at byte 17. -/
theorem C7_bit_mapping_witness :
    (∃ btn, findButton 17 "up" = some btn ∧
      (btn.style = BStyle.Success ↔ Nat.testBit 17 4 = true)) ∧
    processEvents okNES 0 7 freshSession ["up", "a"] =
      some { freshSession with input := 17 } :=
  ⟨((C7_bit_mapping (σ := Nat)).2.1 17).2.2.1,
   (C7_bit_mapping (σ := Nat)).2.2 okNES 0 7 freshSession rfl⟩

/-- C10: the two hidden controller bits (Select = bit 2, Start = bit 3) are
zero whenever the dispatch loop handles an event: no token toggles bit 2 or
bit 3, event handling preserves clearness of those bits, and the boot/reset
script samples Start high for exactly one frame (and Select never) before
ending with a fully cleared byte. -/
theorem C10_hidden_bits :
    (∀ (t : String) (b : Nat), buttonBit t = some b → b ≠ 2 ∧ b ≠ 3) ∧
    (∀ (N : NESIface σ) (fuel newId : Nat) (s s2 : Session σ)
      (ro : Option Response) (t : String), s.input &&& 12 = 0 →
      handleEvent N fuel newId s t = some (s2, ro) →
      s2.input &&& 12 = 0) ∧
    (∀ (N : NESIface σ) (fuel : Nat) (s s2 : Session σ) (trace : List Nat),
      s.input = 0 → bootScriptT N fuel s = some (s2, trace) →
      s2.input = 0 ∧ trace.countP (fun i => i.testBit 3) = 1 ∧
      trace.countP (fun i => i.testBit 2) = 0) := by
  refine ⟨?_, ?_, ?_⟩
  · intro t b hb
    rcases buttonBit_cases t b hb with h|h|h|h|h|h <;> subst h <;> exact ⟨by decide, by decide⟩
  · intro N fuel newId s s2 ro t h0 h
    rcases hbit : buttonBit t with _ | b
    · by_cases hn : t = "next"
      · subst hn
        rw [handleEvent_next] at h
        rw [nextBranch_input N fuel newId s s2 ro h]
        exact h0
      · by_cases hr : t = "reset"
        · subst hr
          rw [handleEvent_reset] at h
          rw [resetBranch_input N fuel newId s s2 ro h]
          decide
        · rw [handleEvent, hbit, if_neg hn, if_neg hr] at h
          cases h
          exact h0
    · rw [handleEvent_toggle N fuel newId s t b hbit] at h
      cases h
      show (s.input ^^^ (1 <<< b)) &&& 12 = 0
      rcases buttonBit_cases t b hbit with h1|h1|h1|h1|h1|h1 <;> subst h1 <;>
        rw [Nat.and_xor_distrib_right, h0] <;> rfl
  · intro N fuel s s2 trace h0 h
    rw [bootScriptT] at h
    rcases hw : waitControlT N fuel (runFramesT N 60 (bootMidT N s)).1
      with _ | ⟨s6, l⟩
    · rw [hw] at h
      cases h
    · rw [hw] at h
      have hr1 := runFramesT_trace N 60 s
      have hr2 := runFramesT_trace N 60 (bootMidT N s)
      have hwl := waitControlT_trace N fuel _ s6 l hw
      have hmid : (bootMidT N s).input = 0 := rfl
      have hl0 : ∀ x ∈ l, x = 0 := by
        intro x hx
        have hx2 := hwl.2 x hx
        rw [hr2.2.1, hmid] at hx2
        exact hx2
      cases h
      refine ⟨?_, ?_, ?_⟩
      · rw [hwl.1, hr2.2.1, hmid]
      · rw [List.countP_append, List.countP_cons, List.countP_append]
        rw [hr1.1, h0, hr2.1, hmid]
        rw [countP_all_zero _ (by decide) _
          (fun x hx => List.eq_of_mem_replicate hx)]
        rw [countP_all_zero _ (by decide) _ hl0]
        decide
      · rw [List.countP_append, List.countP_cons, List.countP_append]
        rw [hr1.1, h0, hr2.1, hmid]
        rw [countP_all_zero _ (by decide) _
          (fun x hx => List.eq_of_mem_replicate hx)]
        rw [countP_all_zero _ (by decide) _ hl0]
        decide

/-- A fresh session at process start, before the warm-up script. -/
def bootSession : Session Nat :=
  { input := 0, nes := 0, frames := 0, attachment := 0 }

/-- The session produced by the warm-up script under `okNES`. -/
def bootResult : Session Nat :=
  { input := 0, nes := 121, frames := 121, attachment := 0 }

/-- The controller bytes sampled during that warm-up script. -/
def bootTrace : List Nat :=
  List.replicate 60 0 ++ 8 :: (List.replicate 60 0 ++ [])

set_option maxRecDepth 8192 in
/-- C10 witness: a concrete toggle that keeps bits 2 and 3 clear, and the
concrete warm-up trace in which Start is sampled high for exactly one
frame. -/
theorem C10_hidden_bits_witness :
    ((4 : Nat) ≠ 2 ∧ (4 : Nat) ≠ 3) ∧
    ({ sampleSession with input := 16 } : Session Nat).input &&& 12 = 0 ∧
    (bootResult.input = 0 ∧
     bootTrace.countP (fun i => i.testBit 3) = 1 ∧
     bootTrace.countP (fun i => i.testBit 2) = 0) :=
  ⟨(C10_hidden_bits (σ := Nat)).1 "up" 4 rfl,
   (C10_hidden_bits (σ := Nat)).2.1 okNES 0 7 sampleSession
     { sampleSession with input := 16 }
     (some { comps := components 16, directive := .keepExisting 5 }) "a"
     (by decide) (by rfl),
   (C10_hidden_bits (σ := Nat)).2.2 okNES 0 bootSession bootResult bootTrace
     rfl (by decide)⟩

set_option maxRecDepth 8192 in
/-- C4 (code-bug evidence): pressing "reset" while byte 17 is held clears
the control register to 0, but the published layout is rendered from the
stale pre-reset byte 17 — which differs from the layout for the post-event
value 0. -/
theorem C4_reset_stale_layout :
    handleEvent okNES 0 9 sampleSession "reset" =
      some (resetResult, some resetResp) ∧
    resetResult.input = 0 ∧ resetResp.comps = components 17 ∧
    components 17 ≠ components 0 :=
  ⟨by decide, rfl, rfl, by decide⟩

/-- C9 counterexample: a transport failure on the first publish is not
retried and does not leave the loop usable — the loop aborts immediately
(run returns the error; main unwraps it), and the second queued event is
never processed. -/
theorem C9_no_retry_counterexample :
    runLoop okNES 0 sampleSession
      [("a", PubResult.err), ("b", PubResult.ok 3)] =
      LoopExit.transportErr := rfl

/-- C9 (amended): a failure while publishing a response is not retried and
is not recovered: the `?` operator propagates it out of the event loop, so
processing stops at once and no later event is handled (`main` then unwraps
the error, terminating the process). -/
theorem C9_transport_error_aborts (N : NESIface σ) (fuel : Nat)
    (s s2 : Session σ) (t : String) (r : Response)
    (rest : List (String × PubResult))
    (h : handleEvent N fuel (pubId .err) s t = some (s2, some r)) :
    runLoop N fuel s ((t, .err) :: rest) = .transportErr := by
  rw [runLoop, h]

/-- C9 witness: the concrete aborted loop after a failed publish of a "b"
toggle. -/
theorem C9_transport_error_aborts_witness :
    runLoop okNES 0 sampleSession [("b", PubResult.err)] =
      LoopExit.transportErr :=
  C9_transport_error_aborts okNES 0 sampleSession
    { sampleSession with input := 19 } "b"
    { comps := components 19, directive := .keepExisting 5 } [] (by rfl)

end DiscordNES
